import Mathlib

/-!
Verification of the ovn-ci job scheduler and execution engine.

This file gives a shallow embedding of the core of the repository:

* `src/lib/runner.rs`   — the typestate job runner (`Runner<New/Running/Finished>`)
* `src/lib/vm/runner.rs` — the per-job ephemeral VM (`Vm`), of which we model the
  pieces the runner calls (`retreive_artifacts` in particular, keeping the
  source's spelling)
* `src/lib/scheduler.rs` — the dual-queue admission-controlled scheduler
* `src/lib/config.rs`   — `Suite` (name/env derivation, cpu-intensive classification)
  and the configuration accessors the scheduler reads.

External effects (filesystem, process spawning/waiting, scp, the wall clock) are
closed over by an explicit oracle `RunnerWorld` giving the result of each
external call, and the runner's transition functions additionally return the
ordered list of externally visible `Action`s they performed, so that claims
about effect order and about which effects did not happen ("no process
started", "does not wait") are directly statable.
-/

namespace OvnCi

/-- Abstract model of `std::io::Error`: we only need its identity. -/
structure IoError where
  osCode : Nat
deriving DecidableEq

/-- Model of `std::process::ExitStatus`: a process either exited with a code or
was terminated by a signal. -/
inductive ExitStatus where
  | exited (code : Int)
  | signaled (sig : Nat)
deriving DecidableEq

/-- `ExitStatus::success`: exited with code 0. -/
def ExitStatus.success : ExitStatus → Bool
  | .exited 0 => true
  | _ => false

/-- `ExitStatus::code`: `Some(code)` when the process exited, `None` when it was
killed by a signal. -/
def ExitStatus.code : ExitStatus → Option Int
  | .exited c => some c
  | .signaled _ => none

/-- Model of `std::process::Output` (status plus captured streams). -/
structure Output where
  status : ExitStatus
  stdout : String
  stderr : String
deriving DecidableEq

/-- `vm::runner::Error` (re-exported as `RunnerVmError`), from
`src/lib/vm/runner.rs`. -/
inductive RunnerVmError where
  | Command (cmd : String) (e : IoError)
  | AlreadyRunning (name : String)
  | VmXml (e : IoError)
  | Cleanup (path : String) (e : IoError)
  | CreateImage (msg : String)
  | CreateVm (msg : String)
  | VmReadyCheck (name : String) (msg : String)
  | LogFileDescriptor (e : IoError)
deriving DecidableEq

/-- `runner::Error` from `src/lib/runner.rs` (the `RunnerFinnish` spelling is
the source's). Note there is no `RunnerStart` variant: spawn failures are
wrapped in `Vm`. -/
inductive RError where
  | LogFile (e : IoError)
  | LogWrite (e : IoError)
  | LogDirectory (e : IoError)
  | Vm (e : RunnerVmError)
  | RunnerFinnish (e : IoError)
  | ReturnCode (code : Int)
deriving DecidableEq

/-- Externally visible side effects of the runner, in the order the code
performs them. -/
inductive Action where
  | mkdirLogDir
  | createLogFile
  | writeLogHeader
  | vmStart
  | commandSpawn
  | retrieveArtifacts
  | procWait
deriving DecidableEq

instance {ε α : Type} [DecidableEq ε] [DecidableEq α] : DecidableEq (Except ε α) :=
  fun x y =>
    match x, y with
    | .ok a, .ok b =>
      if h : a = b then isTrue (by rw [h]) else isFalse (fun hc => by cases hc; exact h rfl)
    | .error a, .error b =>
      if h : a = b then isTrue (by rw [h]) else isFalse (fun hc => by cases hc; exact h rfl)
    | .ok _, .error _ => isFalse (fun hc => by cases hc)
    | .error _, .ok _ => isFalse (fun hc => by cases hc)

/-- Oracle closing over the outside world: the result each external call made
by `run()`/`try_ready()`/`finish()` would observe, plus the two readings of the
monotone clock (`Instant::now()` at the entry of `run()` and inside
`Runner::<Finished>::new`). -/
structure RunnerWorld where
  startTime : Nat
  endTime : Nat
  mkdirResult : Except IoError Unit
  createFileResult : Except IoError Unit
  writeHeaderResult : Except IoError Unit
  vmStartResult : Except RunnerVmError Unit
  spawnResult : Except RunnerVmError Unit
  scpOutput : Except IoError Output
  tryWaitResult : Except IoError (Option ExitStatus)
  waitResult : Except IoError ExitStatus
deriving DecidableEq

/-- `Compiler` from `src/lib/config.rs`. -/
inductive Compiler where
  | gcc
  | clang
deriving DecidableEq

def Compiler.as_str : Compiler → String
  | .gcc => "gcc"
  | .clang => "clang"

def Compiler.as_name : Compiler → String
  | .gcc => "GCC"
  | .clang => "Clang"

/-- `SuiteType` from `src/lib/config.rs`. -/
inductive SuiteType where
  | unit
  | system
  | systemUserspace
  | systemDpdk
  | dist
deriving DecidableEq

def SuiteType.as_str : SuiteType → String
  | .unit => "test"
  | .system => "system-test"
  | .systemUserspace => "system-test-userspace"
  | .systemDpdk => "system-test-dpdk"
  | .dist => "dist-test"

def SuiteType.as_name : SuiteType → String
  | .unit => "unit"
  | .system => "system"
  | .systemUserspace => "system-userspace"
  | .systemDpdk => "system-dpdk"
  | .dist => "dist"

def SuiteType.extra_env : SuiteType → Option (String × String)
  | .unit | .system | .systemUserspace | .dist => none
  | .systemDpdk => some ("DPDK", "dpdk")

/-- `Suite` from `src/lib/config.rs`. `raw_name` is the struct's private
`name` field (the derived display name is the `Suite.name` function below,
mirroring the source's `name()` method). -/
structure Suite where
  raw_name : String
  compiler : Compiler
  options : Option String
  suite_type : Option SuiteType
  sanitizers : Bool
  test_range : Option String
  libs : Option String
  unstable : Bool
  recheck : Bool
deriving DecidableEq

/-- `Suite::envs` from `src/lib/config.rs`. -/
def Suite.envs (s : Suite) : List (String × String) :=
  [("CC", s.compiler.as_str)]
    ++ (match s.options with
        | some opts => [("OPTS", opts)]
        | none => [])
    ++ (match s.suite_type with
        | some ty =>
          ("TESTSUITE", ty.as_str) ::
            (match ty.extra_env with
             | some extra => [extra]
             | none => [])
        | none => [])
    ++ (if s.sanitizers then [("SANITIZERS", "sanitizers")] else [])
    ++ (match s.test_range with
        | some range => [("TEST_RANGE", range)]
        | none => [])
    ++ (match s.libs with
        | some libs => [("LIBS", libs)]
        | none => [])
    ++ (if s.unstable then [("UNSTABLE", "unstable")] else [])
    ++ (if s.recheck then [("RECHECK", "yes")] else [])

/-- `Suite::name` from `src/lib/config.rs`: the derived display name. -/
def Suite.name (s : Suite) : String :=
  s.raw_name ++ " " ++ s.compiler.as_name
    ++ (match s.suite_type with
        | some ty => " - " ++ ty.as_name
        | none => "")
    ++ (match s.test_range with
        | some range => " (" ++ range ++ ")"
        | none => "")
    ++ (if s.sanitizers then " - sanitizers" else "")
    ++ (match s.options with
        | some opts => " (" ++ opts ++ ")"
        | none => "")
    ++ (match s.libs with
        | some libs => " (" ++ libs ++ ")"
        | none => "")
    ++ (if s.unstable then " - unstable" else "")
    ++ (if s.recheck then " - recheck" else "")

/-- `Suite::is_cpu_intensive` from `src/lib/config.rs`. -/
def Suite.is_cpu_intensive (s : Suite) : Bool :=
  match s.suite_type with
  | none | some .unit | some .dist => true
  | _ => false

/-- The `Vm` of `src/lib/vm/runner.rs` (re-exported as `RunnerVm`). The
architecture lookup (`Arch::get()`, a process-global) is not modelled: no
claim depends on it. -/
structure Vm where
  memory : Nat
  vcpu : Nat
  image : String
  name : String
  log_path : String
  net_suffix : Nat
deriving DecidableEq

/-- `Vm::new` from `src/lib/vm/runner.rs` (`VM_PREFIX = "ovn-ci-vm"`,
`LIB_PATH = "/var/lib/ovn-ci"`, `NET_SUFFIX_OFFSET = 10`). -/
def Vm.new (index : Nat) (memory : Nat) (vcpu : Nat) (log_path : String) : Vm :=
  let name := "ovn-ci-vm" ++ toString index
  { memory := memory
    vcpu := vcpu
    name := name
    image := "/var/lib/ovn-ci/" ++ name ++ ".qcow2"
    log_path := log_path
    net_suffix := index + 10 }

/-- `Vm::retreive_artifacts` from `src/lib/vm/runner.rs` (source spelling
kept): runs `scp` with `.output()` and maps only a failure to execute the
command to an error; the captured `Output` — in particular scp's exit status —
is dropped on the floor. -/
def Vm.retreive_artifacts (_vm : Vm) (w : RunnerWorld) : Except RunnerVmError Unit :=
  match w.scpOutput with
  | .error e => .error (.Command "virt-copy-out" e)
  | .ok _ => .ok ()

/-- The command built by `Runner::<New>::new` (`std::process::Command`):
program, arguments and environment bindings. -/
structure CommandModel where
  program : String
  args : List String
  envs : List (String × String)
deriving DecidableEq

/-- Typestate payload `New` from `src/lib/runner.rs`. -/
structure NewState where
  command : CommandModel
  vm : Vm
deriving DecidableEq

/-- Typestate payload `Running` from `src/lib/runner.rs`. The live `Child`
handle is not a value here: its observable behaviour is supplied by the
`RunnerWorld` oracle. -/
structure RunningState where
  start : Nat
  vm : Vm
deriving DecidableEq

/-- Typestate payload `Finished` from `src/lib/runner.rs`. -/
structure FinishedState where
  error : Option RError
  duration : Nat
deriving DecidableEq

/-- `Runner<S>` from `src/lib/runner.rs`. -/
structure Runner (S : Type) where
  name : String
  log_path : String
  state : S
deriving DecidableEq

/-- ASCII lowercasing, character by character (Rust `str::to_lowercase` on the
ASCII-only strings this program lowercases). -/
def asciiLower (s : String) : String :=
  String.mk (s.data.map Char.toLower)

/-- Name sanitisation done by `Runner::<New>::new`:
`to_lowercase().replace(['(', ')'], "").replace(' ', "_")`. -/
def sanitizeName (s : String) : String :=
  String.mk (((asciiLower s).data.filter (fun c => !(c == '(' || c == ')'))).map
    (fun c => if c == ' ' then '_' else c))

/-- `Runner::<New>::new` from `src/lib/runner.rs`: pure construction of the
command line, log path and VM descriptor. -/
def Runner.new (index : Nat) (memory : Nat) (jobs : Nat) (timeout : String)
    (suite : Suite) (logRoot : String) : Runner NewState :=
  let name := suite.name
  let log_path := logRoot ++ "/" ++ sanitizeName name
  let command : CommandModel :=
    { program := "/workspace/ovn/.ci/ci.sh"
      args := ["--ovn-path=/workspace/ovn", "--ovs-path=/workspace/ovs",
               "--jobs=" ++ toString jobs, "--archive-logs",
               "--timeout=" ++ timeout]
      envs := suite.envs }
  { name := name
    log_path := log_path
    state := { command := command, vm := Vm.new index memory jobs log_path } }

/-- `Runner::<Finished>::new` from `src/lib/runner.rs`: records the error and
the elapsed duration (`Instant::now().duration_since(start)`). -/
def Runner.finishedNew (name : String) (log_path : String) (start : Nat)
    (now : Nat) (error : Option RError) : Runner FinishedState :=
  { name := name
    log_path := log_path
    state := { error := error, duration := now - start } }

/-- `Runner::<New>::create_log_file` from `src/lib/runner.rs`: create the log
directory (`LogDirectory` on failure), create the log file (`LogFile` on
failure), then write the header lines (each `write!` mapped to `LogWrite`; the
oracle's `writeHeaderResult` stands for that sequence of writes). Returns the
error or unit, plus the actions performed. -/
def create_log_file (w : RunnerWorld) : Except RError Unit × List Action :=
  match w.mkdirResult with
  | .error e => (.error (.LogDirectory e), [.mkdirLogDir])
  | .ok _ =>
    match w.createFileResult with
    | .error e => (.error (.LogFile e), [.mkdirLogDir, .createLogFile])
    | .ok _ =>
      match w.writeHeaderResult with
      | .error e => (.error (.LogWrite e), [.mkdirLogDir, .createLogFile, .writeLogHeader])
      | .ok _ => (.ok (), [.mkdirLogDir, .createLogFile, .writeLogHeader])

/-- `Runner::<New>::run` from `src/lib/runner.rs`. In order: create the log
directory/file, start the VM (`Error::Vm` on failure), spawn the job command
over the VM transport (`Error::Vm` on failure, via `map_err(Error::Vm)` on
`command_spawn`). Every failure is converted by the `_runner_error!` macro into
a `Finished` runner whose duration is measured from this call's entry
(`start`). -/
def Runner.run (r : Runner NewState) (w : RunnerWorld) :
    (Runner RunningState ⊕ Runner FinishedState) × List Action :=
  let start := w.startTime
  match create_log_file w with
  | (.error e, tr) =>
    (.inr (Runner.finishedNew r.name r.log_path start w.endTime (some e)), tr)
  | (.ok _, tr) =>
    match w.vmStartResult with
    | .error e =>
      (.inr (Runner.finishedNew r.name r.log_path start w.endTime (some (.Vm e))),
       tr ++ [.vmStart])
    | .ok _ =>
      match w.spawnResult with
      | .error e =>
        (.inr (Runner.finishedNew r.name r.log_path start w.endTime (some (.Vm e))),
         tr ++ [.vmStart, .commandSpawn])
      | .ok _ =>
        (.inl { name := r.name, log_path := r.log_path,
                state := { start := start, vm := r.state.vm } },
         tr ++ [.vmStart, .commandSpawn])

/-- `Runner::<Running>::try_ready` from `src/lib/runner.rs`: non-blocking
`try_wait`; a present status means ready, a poll error is also treated as
ready. -/
def Runner.try_ready (_r : Runner RunningState) (w : RunnerWorld) : Bool :=
  match w.tryWaitResult with
  | .ok opt => opt.isSome
  | .error _ => true

/-- `Runner::<Running>::finish` from `src/lib/runner.rs`: first retrieve
artifacts from the VM — on error, return immediately with `Error::Vm` without
waiting for the job process — then block-wait on the process and classify its
exit status. -/
def Runner.finish (r : Runner RunningState) (w : RunnerWorld) :
    Runner FinishedState × List Action :=
  match Vm.retreive_artifacts r.state.vm w with
  | .error e =>
    (Runner.finishedNew r.name r.log_path r.state.start w.endTime (some (.Vm e)),
     [.retrieveArtifacts])
  | .ok _ =>
    let error : Option RError :=
      match w.waitResult with
      | .ok status =>
        if status.success then none
        else some (.ReturnCode (status.code.getD (-1)))
      | .error e => some (.RunnerFinnish e)
    (Runner.finishedNew r.name r.log_path r.state.start w.endTime error,
     [.retrieveArtifacts, .procWait])

/-- `Runner::<Finished>::success` from `src/lib/runner.rs`. -/
def Runner.success (r : Runner FinishedState) : Bool :=
  r.state.error.isNone

/-- Display string of `std::io::Error`; only its shape matters here. -/
def IoError.msg (e : IoError) : String :=
  "os error " ++ toString e.osCode

/-- The `thiserror` display strings of `vm::runner::Error`. -/
def RunnerVmError.msg : RunnerVmError → String
  | .Command cmd e => "Cannot execute \"" ++ cmd ++ "\": " ++ e.msg
  | .AlreadyRunning name => "VM \"" ++ name ++ "\" is already running"
  | .VmXml e => "Cannot create VM XML: " ++ e.msg
  | .Cleanup path e => "Cannot remove old VM data (" ++ path ++ "): " ++ e.msg
  | .CreateImage m => "Cannot create image from base: " ++ m
  | .CreateVm m => "Cannot create VM: " ++ m
  | .VmReadyCheck name m => "VM \"" ++ name ++ "\" ready check failed: " ++ m
  | .LogFileDescriptor e => "Cannot clone log file descriptor: " ++ e.msg

/-- The `thiserror` display strings of `runner::Error`. -/
def RError.msg : RError → String
  | .LogFile e => "Cannot create log file: " ++ e.msg
  | .LogWrite e => "Cannot write to log file: " ++ e.msg
  | .LogDirectory e => "Cannot create log directory: " ++ e.msg
  | .Vm e => "VM error: " ++ e.msg
  | .RunnerFinnish e => "Cannot finnish runner job: " ++ e.msg
  | .ReturnCode c => "Non-zero return code: " ++ toString c

/-- Rust's zero-padded minimum-width integer formatting: pad the decimal
rendering of `n` with leading zeros up to `width` (longer renderings are kept
whole). -/
def padZeros (width n : Nat) : String :=
  let s := toString n
  String.mk (List.replicate (width - s.data.length) '0' ++ s.data)

/-- The duration formatting of `Runner::<Finished>::format_duration`
(`src/lib/runner.rs`): minutes zero-padded to width 2, then `m`, a space,
seconds-within-minute zero-padded to width 2, then `s`, a space,
milliseconds-within-second zero-padded to width 3, then `ms`. -/
def formatDurationMillis (millis : Nat) : String :=
  let secs := millis / 1000
  let minutes := secs / 60
  padZeros 2 minutes ++ "m " ++ padZeros 2 (secs % 60) ++ "s "
    ++ padZeros 3 (millis % 1000) ++ "ms"

/-- `Runner::<Finished>::format_duration` applied to the recorded duration. -/
def Runner.format_duration (r : Runner FinishedState) : String :=
  formatDurationMillis r.state.duration

/-- `Runner::<Finished>::report_console` from `src/lib/runner.rs`. -/
def Runner.report_console (r : Runner FinishedState) : String :=
  ("The job \"" ++ r.name ++ "\" is done. Duration: ")
    ++ Runner.format_duration r
    ++ (", Status: "
        ++ (match r.state.error with
            | some e => "Fail, " ++ e.msg
            | none => "Ok"))

/-- `Path::strip_prefix` followed by `unwrap_or("")`, on the string paths of
this model: drop the root directory and its separator when it leads the path,
else the empty default. -/
def pathStripRoot (p root : String) : String :=
  if (root ++ "/").data.isPrefixOf p.data then String.mk (p.data.drop (root.data.length + 1))
  else ""

/-- `Runner::<Finished>::report_html` from `src/lib/runner.rs`. -/
def Runner.report_html (r : Runner FinishedState) (host : String) (logRoot : String) :
    String :=
  let stripped := pathStripRoot r.log_path logRoot
  let status := if r.success then "Ok" else "Fail"
  let artifacts :=
    if r.success then "-"
    else
      "<a href=\"http://" ++ host ++ ":8080/" ++ stripped
        ++ "/logs.tgz\" target=\"_blank\">Artifacts</a>"
  ("<tr><td>" ++ r.name ++ "</td><td class=\"" ++ asciiLower status ++ "\">" ++ status
      ++ "</td><td>")
    ++ Runner.format_duration r
    ++ ("</td><td><a href=\"http://" ++ host ++ ":8080/" ++ stripped
        ++ "/ovn-ci.log\" target=\"_blank\">Log</a></td><td>" ++ artifacts ++ "</td></tr>")

/-- The duration pattern claimed by the spec, read literally: two digits, `m`,
two digits, `s`, three digits, `ms`, with no other characters between the
fields. -/
def claimDurationShape (l : List Char) : Bool :=
  match l with
  | [a, b, 'm', c, d, 's', e, f, g, 'm', 's'] =>
    a.isDigit && b.isDigit && c.isDigit && d.isDigit && e.isDigit && f.isDigit && g.isDigit
  | _ => false

/-- Whether any substring of `s` matches the literal claimed duration
pattern. -/
def containsClaimDurationShape (s : String) : Bool :=
  (List.range (s.data.length + 1)).any
    (fun i => claimDurationShape ((s.data.drop i).take 11))

/-- The duration pattern the code actually produces: two digits, `m`, a space,
two digits, `s`, a space, three digits, `ms`. -/
def amendedDurationShape (l : List Char) : Bool :=
  match l with
  | [a, b, 'm', ' ', c, d, 's', ' ', e, f, g, 'm', 's'] =>
    a.isDigit && b.isDigit && c.isDigit && d.isDigit && e.isDigit && f.isDigit && g.isDigit
  | _ => false

/-- Per-step oracle for a queue step: the world each runner would observe when
`run()`, `try_ready()` or `finish()` is called on it during this step. -/
structure StepOracle where
  runW : Runner NewState → RunnerWorld
  pollW : Runner RunningState → RunnerWorld
  finishW : Runner RunningState → RunnerWorld

/-- `Queue` from `src/lib/scheduler.rs`. The optional `CliReport` sidecar is
omitted: `add_finished` only fires it and prints to console, with no effect on
queue state. -/
structure Queue where
  limit : Nat
  waiting : List (Runner NewState)
  running : List (Runner RunningState)
  finished : List (Runner FinishedState)

/-- `Queue::new` from `src/lib/scheduler.rs`. -/
def Queue.new (runners : List (Runner NewState)) (limit : Nat) : Queue :=
  { limit := limit, waiting := runners, running := [], finished := [] }

/-- `Queue::is_finished` from `src/lib/scheduler.rs`. -/
def Queue.is_finished (q : Queue) : Bool :=
  q.waiting.isEmpty && q.running.isEmpty

/-- `Queue::can_yield` from `src/lib/scheduler.rs`. -/
def Queue.can_yield (q : Queue) : Bool :=
  q.is_finished && decide (q.limit > 0)

/-- The `while` loop of `Queue::schedule`: `stack` is the waiting `Vec` with
its pop end (the Vec's tail) at the head of the list. While waiting is
non-empty and the running count is below the limit, pop one runner, call
`run()` on it, and push the result into running or finished. -/
def scheduleGo (runW : Runner NewState → RunnerWorld) (limit : Nat) :
    List (Runner NewState) → List (Runner RunningState) → List (Runner FinishedState) →
      List (Runner NewState) × List (Runner RunningState) × List (Runner FinishedState)
  | [], running, finished => ([], running, finished)
  | r :: rest, running, finished =>
    if running.length < limit then
      match (Runner.run r (runW r)).1 with
      | .inl rr => scheduleGo runW limit rest (running ++ [rr]) finished
      | .inr rf => scheduleGo runW limit rest running (finished ++ [rf])
    else (r :: rest, running, finished)

/-- `Queue::schedule` from `src/lib/scheduler.rs`. `Vec::pop` removes the last
element, so the loop runs over the reversed waiting list. -/
def Queue.schedule (runW : Runner NewState → RunnerWorld) (q : Queue) : Queue :=
  let res := scheduleGo runW q.limit q.waiting.reverse q.running q.finished
  { q with waiting := res.1.reverse, running := res.2.1, finished := res.2.2 }

/-- `Vec::swap_remove(i)`: remove the element at `i` and move the last element
into its place. Encoded as: set position `i` of `dropLast` to the last element
(when `i` is the last position this `set` is out of range and is the
identity, which is exactly the swap-remove of the last element). Out-of-range
`i` returns the list unchanged (the scheduler never does this). -/
def swapRemove {α : Type} (l : List α) (i : Nat) : List α × Option α :=
  match l[i]?, l.getLast? with
  | some x, some y => (l.dropLast.set i y, some x)
  | _, _ => (l, none)

/-- The removal loop of `Queue::collect_finished`: for each collected index
(descending), `swap_remove` the runner out of `running`, `finish()` it and
push it onto `finished`. -/
def collectGo (finishW : Runner RunningState → RunnerWorld) :
    List Nat → List (Runner RunningState) → List (Runner FinishedState) →
      List (Runner RunningState) × List (Runner FinishedState)
  | [], running, finished => (running, finished)
  | i :: rest, running, finished =>
    match swapRemove running i with
    | (running', some r) =>
      collectGo finishW rest running' (finished ++ [(Runner.finish r (finishW r)).1])
    | (running', none) => collectGo finishW rest running' finished

/-- `Queue::collect_finished` from `src/lib/scheduler.rs`: enumerate `running`,
keep the indices whose runner polls ready, reverse them (descending order),
then swap-remove/finish each. -/
def Queue.collect_finished (pollW : Runner RunningState → RunnerWorld)
    (finishW : Runner RunningState → RunnerWorld) (q : Queue) : Queue :=
  let idxs :=
    (((q.running.enum).filter (fun p => Runner.try_ready p.2 (pollW p.2))).map Prod.fst).reverse
  let res := collectGo finishW idxs q.running q.finished
  { q with running := res.1, finished := res.2 }

/-- `Queue::step` from `src/lib/scheduler.rs`: `schedule()` then
`collect_finished()`. -/
def Queue.step (o : StepOracle) (q : Queue) : Queue :=
  Queue.collect_finished o.pollW o.finishW (Queue.schedule o.runW q)

/-- All runner names held by a queue, across its three partitions. -/
def Queue.allNames (q : Queue) : List String :=
  q.waiting.map (fun r => r.name) ++ q.running.map (fun r => r.name)
    ++ q.finished.map (fun r => r.name)

/-- `Scheduler` from `src/lib/scheduler.rs` (field spelling from the source). -/
structure Scheduler where
  cpu_itensive : Queue
  regular : Queue

/-- The configuration accessors `Scheduler::new` reads (`src/lib/config.rs`):
`concurrent_limit()`, `jobs()`, `timeout()`, `vm().memory()`, `suites()`. -/
structure Configuration where
  concurrent_limit : Option Nat
  jobs : Nat
  timeout : String
  vm_memory : Nat
  suites : List Suite

/-- The suite-partitioning `for` loop of `Scheduler::new`: build a runner per
suite with its global index and push it onto the cpu-intensive list when the
cpu-intensive limit is positive and the suite is cpu-intensive, else onto the
regular list. Accumulator: (regular, cpu-intensive). -/
def schedulerPartition (config : Configuration) (logRoot : String)
    (cpu_intensive_limit : Nat) :
    List (Runner NewState) × List (Runner NewState) :=
  config.suites.enum.foldl
    (fun acc p =>
      let runner := Runner.new p.1 config.vm_memory config.jobs config.timeout p.2 logRoot
      if cpu_intensive_limit > 0 && p.2.is_cpu_intensive then
        (acc.1, acc.2 ++ [runner])
      else
        (acc.1 ++ [runner], acc.2))
    ([], [])

/-- `Scheduler::new` from `src/lib/scheduler.rs`: split the overall concurrency
limit (default 1 when unset) into the cpu-intensive share (`limit/4 + 1` when
the limit exceeds 1, else 0) and the remainder for the regular queue, then
partition the suites. -/
def Scheduler.new (config : Configuration) (logRoot : String) : Scheduler :=
  let regular_limit0 := config.concurrent_limit.getD 1
  let cpu_intensive_limit :=
    if regular_limit0 > 1 then regular_limit0 / 4 + 1 else 0
  let regular_limit := regular_limit0 - cpu_intensive_limit
  let lists := schedulerPartition config logRoot cpu_intensive_limit
  { cpu_itensive := Queue.new lists.2 cpu_intensive_limit
    regular := Queue.new lists.1 regular_limit }

/-- One iteration of the `while` loop in `Scheduler::run`: step both queues,
then, if the cpu-intensive queue can yield, transfer its whole limit to the
regular queue and zero it. (The fixed 100ms sleep has no modelled effect.) -/
def Scheduler.iter (o : StepOracle) (s : Scheduler) : Scheduler :=
  let cpu := s.cpu_itensive.step o
  let reg := s.regular.step o
  if cpu.can_yield then
    { cpu_itensive := { cpu with limit := 0 }
      regular := { reg with limit := reg.limit + cpu.limit } }
  else
    { cpu_itensive := cpu, regular := reg }

/-- `n` iterations of the `Scheduler::run` loop, with a (possibly different)
oracle for each iteration. -/
def Scheduler.runSteps (o : Nat → StepOracle) : Nat → Scheduler → Scheduler
  | 0, s => s
  | Nat.succ n, s => Scheduler.runSteps o n (Scheduler.iter (o n) s)

/-!
Concrete fixtures used by witnesses and counterexamples.
-/

/-- A concrete I/O error. -/
def ioErr3 : IoError := ⟨3⟩

/-- Another concrete I/O error. -/
def ioErr5 : IoError := ⟨5⟩

/-- A concrete VM-transport error (failure to execute `ssh`). -/
def vmCmdErr : RunnerVmError := .Command "ssh" ioErr3

/-- A concrete unit-test suite (cpu-intensive by classification). -/
def suiteEx : Suite :=
  { raw_name := "ovn", compiler := .gcc, options := none, suite_type := some .unit,
    sanitizers := false, test_range := none, libs := none, unstable := false,
    recheck := false }

/-- A world where every external call succeeds and the job exits 0; the polled
process is still running. -/
def wAllOk : RunnerWorld :=
  { startTime := 0, endTime := 7
    mkdirResult := .ok (), createFileResult := .ok (), writeHeaderResult := .ok ()
    vmStartResult := .ok (), spawnResult := .ok ()
    scpOutput := .ok ⟨.exited 0, "", ""⟩
    tryWaitResult := .ok none
    waitResult := .ok (.exited 0) }

/-- Like `wAllOk` but scp ran and exited nonzero (archive missing on the VM). -/
def wScpNonzero : RunnerWorld :=
  { wAllOk with scpOutput := .ok ⟨.exited 1, "", "scp: /root/logs.tgz: No such file"⟩ }

/-- Like `wAllOk` but the scp command itself could not be executed. -/
def wScpFail : RunnerWorld := { wAllOk with scpOutput := .error ioErr5 }

/-- Like `wAllOk` but the log-directory creation fails. -/
def wMkdirFail : RunnerWorld := { wAllOk with mkdirResult := .error ioErr5 }

/-- Like `wAllOk` but the VM fails to start. -/
def wVmFail : RunnerWorld := { wAllOk with vmStartResult := .error vmCmdErr }

/-- Like `wAllOk` but spawning the job command fails. -/
def wSpawnFail : RunnerWorld := { wAllOk with spawnResult := .error vmCmdErr }

/-- Like `wAllOk` but the job process exits with code 3. -/
def wExit3 : RunnerWorld := { wAllOk with waitResult := .ok (.exited 3) }

/-- A concrete `Runner<New>` built through `Runner::new`. -/
def rNewEx : Runner NewState := Runner.new 0 4096 4 "240" suiteEx "/var/log/ovn-ci"

/-- A concrete VM descriptor. -/
def vmEx : Vm := Vm.new 0 4096 4 "/var/log/ovn-ci/ovn_gcc_-_unit"

/-- A concrete `Runner<Running>`. -/
def rRunEx : Runner RunningState :=
  { name := "ovn GCC - unit", log_path := "/var/log/ovn-ci/ovn_gcc_-_unit",
    state := { start := 0, vm := vmEx } }

/-!
C7 — `try_ready` polling semantics.
-/

/-- C7: for every Running Runner, `try_ready()` returns true if the
non-blocking poll reports that the process has exited or if the poll itself
returned an error, and returns false only when the poll confirms the process is
still running (`try_wait` returned `Ok(None)`). -/
theorem c7_try_ready_false_iff_still_running (r : Runner RunningState) (w : RunnerWorld) :
    Runner.try_ready r w = false ↔ w.tryWaitResult = Except.ok none := by
  unfold Runner.try_ready
  cases h : w.tryWaitResult with
  | ok opt => cases opt <;> simp
  | error e => simp

/-!
C9 — `retreive_artifacts` ignores scp's exit status.
-/

/-- C9: `retreive_artifacts()` returns `Ok` whenever the scp copy process could
be spawned and awaited, regardless of scp's exit status; the only error it can
return is failure to execute the scp command at all (wrapped as a `Command`
error). -/
theorem c9_retrieve_artifacts_ignores_scp_status (vm : Vm) (w : RunnerWorld) :
    (∀ out : Output, w.scpOutput = Except.ok out →
        Vm.retreive_artifacts vm w = Except.ok ())
    ∧ (∀ e : IoError, w.scpOutput = Except.error e →
        Vm.retreive_artifacts vm w = Except.error (RunnerVmError.Command "virt-copy-out" e))
    ∧ (∀ err : RunnerVmError, Vm.retreive_artifacts vm w = Except.error err →
        ∃ e : IoError, err = RunnerVmError.Command "virt-copy-out" e
          ∧ w.scpOutput = Except.error e) := by
  refine ⟨?_, ?_, ?_⟩
  · intro out hout
    unfold Vm.retreive_artifacts
    rw [hout]
  · intro e he
    unfold Vm.retreive_artifacts
    rw [he]
  · intro err herr
    unfold Vm.retreive_artifacts at herr
    cases h : w.scpOutput with
    | ok o => rw [h] at herr; exact absurd herr (by simp)
    | error e =>
      rw [h] at herr
      exact ⟨e, by injection herr with h2; exact h2.symm, rfl⟩

/-- C9 witness: scp exiting 1 (archive missing) is still `Ok`; scp failing to
execute yields the `Command` error. -/
theorem c9_witness :
    Vm.retreive_artifacts vmEx wScpNonzero = Except.ok ()
    ∧ Vm.retreive_artifacts vmEx wScpFail
        = Except.error (RunnerVmError.Command "virt-copy-out" ioErr5) :=
  ⟨(c9_retrieve_artifacts_ignores_scp_status vmEx wScpNonzero).1
      ⟨.exited 1, "", "scp: /root/logs.tgz: No such file"⟩ rfl,
   (c9_retrieve_artifacts_ignores_scp_status vmEx wScpFail).2.1 ioErr5 rfl⟩

/-!
C6 — `success()` iff exit status 0.
-/

/-- C6: for a Finished Runner produced by `finish()` when artifact retrieval
succeeded and the blocking wait returned a status, `success()` is true iff no
error was recorded, iff the exit status was 0, and a nonzero exit code `n` is
recorded as `ReturnCode n`. -/
theorem c6_success_iff_exit_zero (r : Runner RunningState) (w : RunnerWorld)
    (out : Output) (st : ExitStatus)
    (hscp : w.scpOutput = Except.ok out) (hwait : w.waitResult = Except.ok st) :
    ((Runner.finish r w).1.success = true ↔ (Runner.finish r w).1.state.error = none)
    ∧ ((Runner.finish r w).1.success = true ↔ st = ExitStatus.exited 0)
    ∧ (∀ n : Int, st = ExitStatus.exited n → n ≠ 0 →
        (Runner.finish r w).1.state.error = some (RError.ReturnCode n)) := by
  unfold Runner.finish Vm.retreive_artifacts
  rw [hscp, hwait]
  unfold Runner.success Runner.finishedNew
  refine ⟨by simp [Option.isNone_iff_eq_none], ?_, ?_⟩
  · cases st with
    | exited c =>
      by_cases hc : c = 0 <;> simp [ExitStatus.success, hc]
    | signaled s => simp [ExitStatus.success]
  · intro n hst hn
    subst hst
    simp [ExitStatus.success, ExitStatus.code, hn]

/-- C6 witness: the spec scenario — a job exiting with code 3 gives
`success() == false` with a recorded `ReturnCode 3`. -/
theorem c6_witness :
    ((Runner.finish rRunEx wExit3).1.success = true ↔ ExitStatus.exited 3 = ExitStatus.exited 0)
    ∧ (Runner.finish rRunEx wExit3).1.state.error = some (RError.ReturnCode 3) :=
  ⟨(c6_success_iff_exit_zero rRunEx wExit3 ⟨.exited 0, "", ""⟩ (.exited 3) rfl rfl).2.1,
   (c6_success_iff_exit_zero rRunEx wExit3 ⟨.exited 0, "", ""⟩ (.exited 3) rfl rfl).2.2 3 rfl
     (by decide)⟩

/-!
C1 — artifact-retrieval errors during `finish()`.
-/

/-- C1 counterexample: with the job process having exited 0 but the scp
command failing to execute, `finish()` returns a failed runner carrying the
`Vm` error and never waits for the job process — the artifact-retrieval error
is propagated as job failure, contradicting the claim that it is logged only
and that `success()` is determined solely by the exit status. -/
theorem c1_counterexample :
    (Runner.finish rRunEx wScpFail).1.success = false
    ∧ (Runner.finish rRunEx wScpFail).1.state.error
        = some (RError.Vm (RunnerVmError.Command "virt-copy-out" ioErr5))
    ∧ Action.procWait ∉ (Runner.finish rRunEx wScpFail).2
    ∧ wScpFail.waitResult = Except.ok (ExitStatus.exited 0) := by
  decide

/-- C1 amended: artifact retrieval is best-effort only with respect to scp's
own exit status — when scp ran (`Ok` output), `finish()` does wait for the job
process and success is determined by its exit status. But when
`retreive_artifacts` returns an error (the scp command could not be executed),
`finish()` returns immediately with that `Vm` error, without waiting for the
job process; that error supersedes the job's exit status. -/
theorem c1_amended_artifact_error_supersedes (r : Runner RunningState) (w : RunnerWorld) :
    (∀ out : Output, w.scpOutput = Except.ok out →
        Action.procWait ∈ (Runner.finish r w).2
        ∧ ((Runner.finish r w).1.success = true
            ↔ ∃ st : ExitStatus, w.waitResult = Except.ok st ∧ st.success = true))
    ∧ (∀ e : IoError, w.scpOutput = Except.error e →
        (Runner.finish r w).1.state.error
            = some (RError.Vm (RunnerVmError.Command "virt-copy-out" e))
        ∧ Action.procWait ∉ (Runner.finish r w).2) := by
  constructor
  · intro out hout
    unfold Runner.finish Vm.retreive_artifacts
    rw [hout]
    refine ⟨by simp, ?_⟩
    unfold Runner.success Runner.finishedNew
    cases hw : w.waitResult with
    | ok st =>
      cases st with
      | exited c => by_cases hc : c = 0 <;> simp [ExitStatus.success, hc]
      | signaled s => simp [ExitStatus.success]
    | error e => simp
  · intro e he
    unfold Runner.finish Vm.retreive_artifacts
    rw [he]
    exact ⟨rfl, by simp⟩

/-- C1 amended witness: scp exiting nonzero still waits for the job; scp
failing to execute yields the superseding `Vm` error with no wait. -/
theorem c1_amended_witness :
    Action.procWait ∈ (Runner.finish rRunEx wScpNonzero).2
    ∧ (Runner.finish rRunEx wScpFail).1.state.error
        = some (RError.Vm (RunnerVmError.Command "virt-copy-out" ioErr5))
    ∧ Action.procWait ∉ (Runner.finish rRunEx wScpFail).2 :=
  ⟨((c1_amended_artifact_error_supersedes rRunEx wScpNonzero).1
      ⟨.exited 1, "", "scp: /root/logs.tgz: No such file"⟩ rfl).1,
   ((c1_amended_artifact_error_supersedes rRunEx wScpFail).2 ioErr5 rfl).1,
   ((c1_amended_artifact_error_supersedes rRunEx wScpFail).2 ioErr5 rfl).2⟩

/-!
C2 — `run()` effect order and failure mapping.
-/

/-- Outcome shape of a failed `run()`: a `Finished` runner carrying `err`,
duration measured from the entry of `run()` (`startTime`) to the
`Finished` construction (`endTime`). -/
def failsWith (r : Runner NewState) (w : RunnerWorld) (err : RError) : Prop :=
  (Runner.run r w).1
    = Sum.inr { name := r.name, log_path := r.log_path,
                state := { error := some err, duration := w.endTime - w.startTime } }

/-- The error recorded by `run()`, if it failed. -/
def runErrorOf (r : Runner NewState) (w : RunnerWorld) : Option RError :=
  match (Runner.run r w).1 with
  | .inl _ => none
  | .inr f => f.state.error

/-- C2 counterexample: a command-spawn failure does not yield a distinct
`RunnerStart` error — the `Error` enum has no such variant; the spawn failure
is recorded with the very same `Vm` constructor as a VM-provisioning failure,
as shown by running the same runner against a world failing at `vm.start()`
and one failing at `command_spawn`. -/
theorem c2_counterexample :
    runErrorOf rNewEx wSpawnFail = some (RError.Vm vmCmdErr)
    ∧ runErrorOf rNewEx wSpawnFail = runErrorOf rNewEx wVmFail := by
  decide

/-- C2 amended: `run()` performs its side effects in order and maps each
failure to a `Finished` runner with no job process started: log-directory
failure to `LogDirectory`, log-file creation failure to `LogFile`, VM
provisioning failure to `Vm`, and command-spawn failure likewise to `Vm`
(there is no `RunnerStart` variant); in every failure case the duration is
measured from the start of `run()`, and on success a Running runner carrying
the `run()`-entry timestamp is returned after the full effect sequence. -/
theorem c2_amended_run_effects (r : Runner NewState) (w : RunnerWorld) :
    (∀ e : IoError, w.mkdirResult = Except.error e →
        failsWith r w (RError.LogDirectory e)
        ∧ Action.vmStart ∉ (Runner.run r w).2
        ∧ Action.commandSpawn ∉ (Runner.run r w).2)
    ∧ (∀ e : IoError, w.mkdirResult = Except.ok () → w.createFileResult = Except.error e →
        failsWith r w (RError.LogFile e)
        ∧ Action.vmStart ∉ (Runner.run r w).2
        ∧ Action.commandSpawn ∉ (Runner.run r w).2)
    ∧ (∀ v : RunnerVmError, w.mkdirResult = Except.ok () →
        w.createFileResult = Except.ok () → w.writeHeaderResult = Except.ok () →
        w.vmStartResult = Except.error v →
        failsWith r w (RError.Vm v) ∧ Action.commandSpawn ∉ (Runner.run r w).2)
    ∧ (∀ v : RunnerVmError, w.mkdirResult = Except.ok () →
        w.createFileResult = Except.ok () → w.writeHeaderResult = Except.ok () →
        w.vmStartResult = Except.ok () → w.spawnResult = Except.error v →
        failsWith r w (RError.Vm v))
    ∧ (w.mkdirResult = Except.ok () → w.createFileResult = Except.ok () →
        w.writeHeaderResult = Except.ok () → w.vmStartResult = Except.ok () →
        w.spawnResult = Except.ok () →
        (Runner.run r w).1
          = Sum.inl { name := r.name, log_path := r.log_path,
                      state := { start := w.startTime, vm := r.state.vm } }
        ∧ (Runner.run r w).2
          = [Action.mkdirLogDir, Action.createLogFile, Action.writeLogHeader,
             Action.vmStart, Action.commandSpawn]) := by
  refine ⟨?_, ?_, ?_, ?_, ?_⟩
  · intro e h1
    simp [failsWith, Runner.run, create_log_file, Runner.finishedNew, h1]
  · intro e h1 h2
    simp [failsWith, Runner.run, create_log_file, Runner.finishedNew, h1, h2]
  · intro v h1 h2 h3 h4
    simp [failsWith, Runner.run, create_log_file, Runner.finishedNew, h1, h2, h3, h4]
  · intro v h1 h2 h3 h4 h5
    simp [failsWith, Runner.run, create_log_file, Runner.finishedNew, h1, h2, h3, h4, h5]
  · intro h1 h2 h3 h4 h5
    simp [Runner.run, create_log_file, h1, h2, h3, h4, h5]

/-- C2 amended witness: a failed log-directory creation yields `LogDirectory`
with neither the VM started nor a process spawned. -/
theorem c2_amended_witness :
    failsWith rNewEx wMkdirFail (RError.LogDirectory ioErr5)
    ∧ Action.vmStart ∉ (Runner.run rNewEx wMkdirFail).2
    ∧ Action.commandSpawn ∉ (Runner.run rNewEx wMkdirFail).2 :=
  (c2_amended_run_effects rNewEx wMkdirFail).1 ioErr5 rfl

/-!
C8 — duration formatting in the Finished reports.
-/

set_option maxRecDepth 4096 in
/-- Zero-padding to width 2 yields exactly two digit characters for all inputs
below 100. -/
lemma padZeros_two : ∀ n : Nat, n < 100 →
    ((padZeros 2 n).data.length = 2 ∧ (padZeros 2 n).data.all Char.isDigit = true) := by
  decide

set_option maxRecDepth 40000 in
/-- Zero-padding to width 3 yields exactly three digit characters for all
inputs below 1000. -/
lemma padZeros_three : ∀ n : Nat, n < 1000 →
    ((padZeros 3 n).data.length = 3 ∧ (padZeros 3 n).data.all Char.isDigit = true) := by
  decide

/-- A concrete successful `Runner<Finished>` with a zero duration. -/
def rFinOkEx : Runner FinishedState :=
  { name := "ovn GCC - unit", log_path := "/var/log/ovn-ci/ovn_gcc_-_unit",
    state := { error := none, duration := 0 } }

set_option maxRecDepth 16384 in
/-- C8 counterexample: the formatted duration of a Finished runner is
`00m 00s 000ms` — the fields are separated by spaces, so it does not match the
claimed `MMmSSsMMMms` pattern (no other characters between the fields), and no
substring of either report does. -/
theorem c8_counterexample :
    claimDurationShape (Runner.format_duration rFinOkEx).data = false
    ∧ containsClaimDurationShape (Runner.report_console rFinOkEx) = false
    ∧ containsClaimDurationShape (Runner.report_html rFinOkEx "ci-host" "/var/log") = false
    ∧ Runner.format_duration rFinOkEx = "00m 00s 000ms" := by
  decide

/-- C8 amended: `format_duration` — the duration string embedded by both
`report_console()` and `report_html()` — renders the pattern
`MMm SSs MMMms`: two-digit zero-padded minutes, `m`, a space, two-digit
seconds, `s`, a space, three-digit milliseconds, `ms` (for durations below 100
minutes, above which the minute field widens). -/
theorem c8_amended_duration_format (d : Nat) (hd : d < 6000000) :
    amendedDurationShape (formatDurationMillis d).data = true
    ∧ (∀ r : Runner FinishedState, ∃ pre post : String,
        Runner.report_console r = pre ++ Runner.format_duration r ++ post)
    ∧ (∀ (r : Runner FinishedState) (host logRoot : String), ∃ pre post : String,
        Runner.report_html r host logRoot = pre ++ Runner.format_duration r ++ post) := by
  refine ⟨?_, fun r => ⟨_, _, rfl⟩, fun r host logRoot => ⟨_, _, rfl⟩⟩
  have h1 : d / 1000 / 60 < 100 := by
    rw [Nat.div_div_eq_div_mul]
    exact (Nat.div_lt_iff_lt_mul (by norm_num)).2 (by omega)
  have h2 : d / 1000 % 60 < 100 := lt_trans (Nat.mod_lt _ (by norm_num)) (by norm_num)
  have h3 : d % 1000 < 1000 := Nat.mod_lt _ (by norm_num)
  obtain ⟨l1, d1⟩ := padZeros_two _ h1
  obtain ⟨l2, d2⟩ := padZeros_two _ h2
  obtain ⟨l3, d3⟩ := padZeros_three _ h3
  obtain ⟨a, b, hab⟩ := List.length_eq_two.mp l1
  obtain ⟨c, d', hcd⟩ := List.length_eq_two.mp l2
  obtain ⟨e, f, g, hefg⟩ := List.length_eq_three.mp l3
  rw [hab] at d1
  rw [hcd] at d2
  rw [hefg] at d3
  simp only [List.all_cons, List.all_nil, Bool.and_true, Bool.and_eq_true] at d1 d2 d3
  have hdata : (formatDurationMillis d).data
      = a :: b :: 'm' :: ' ' :: c :: d' :: 's' :: ' ' :: e :: f :: g :: 'm' :: 's' :: [] := by
    show ((padZeros 2 (d / 1000 / 60) ++ "m " ++ padZeros 2 (d / 1000 % 60) ++ "s "
      ++ padZeros 3 (d % 1000) ++ "ms")).data = _
    simp [String.data_append, hab, hcd, hefg]
  rw [hdata]
  simp [amendedDurationShape, d1.1, d1.2, d2.1, d2.2, d3.1, d3.2.1, d3.2.2]

/-- C8 amended witness: 61999 ms renders as `01m 01s 999ms`, matching the
space-separated pattern. -/
theorem c8_amended_witness :
    61999 < 6000000 ∧ amendedDurationShape (formatDurationMillis 61999).data = true :=
  ⟨by norm_num, (c8_amended_duration_format 61999 (by norm_num)).1⟩

/-!
C3 — queue invariants: admission bound and partition conservation.
-/

/-- The name of the runner produced by `run()` is the name of the runner it
consumed, in both the Running and the Finished outcome. -/
lemma run_fst_name (r : Runner NewState) (w : RunnerWorld) :
    (match (Runner.run r w).1 with
     | .inl rr => rr.name
     | .inr rf => rf.name) = r.name := by
  cases hm : w.mkdirResult <;> cases hc : w.createFileResult <;>
    cases hw : w.writeHeaderResult <;> cases hv : w.vmStartResult <;>
      cases hs : w.spawnResult <;>
        simp [Runner.run, create_log_file, Runner.finishedNew, hm, hc, hw, hv, hs]

/-- `finish()` preserves the runner's name. -/
lemma finish_fst_name (r : Runner RunningState) (w : RunnerWorld) :
    ((Runner.finish r w).1).name = r.name := by
  cases hs : w.scpOutput <;>
    simp [Runner.finish, Vm.retreive_artifacts, Runner.finishedNew, hs]

/-- Moving an element from the middle partition's end into the first list's
head is a permutation. -/
lemma perm_shuffle_mid (x : String) (A B C : List String) :
    ((A ++ (B ++ [x])) ++ C).Perm (x :: ((A ++ B) ++ C)) := by
  have h1 : (A ++ (B ++ [x])).Perm (x :: (A ++ B)) := by
    exact (List.Perm.append_left A (List.perm_append_singleton x B)).trans List.perm_middle
  exact h1.append_right C

/-- Moving an element from the last partition's end into the head is a
permutation. -/
lemma perm_shuffle_last (x : String) (A B C : List String) :
    ((A ++ B) ++ (C ++ [x])).Perm (x :: ((A ++ B) ++ C)) :=
  (List.Perm.append_left (A ++ B) (List.perm_append_singleton x C)).trans List.perm_middle

/-- The scheduling loop never grows the running set beyond the limit. -/
lemma scheduleGo_length (runW : Runner NewState → RunnerWorld) (limit : Nat) :
    ∀ (stack : List (Runner NewState)) (running : List (Runner RunningState))
      (finished : List (Runner FinishedState)), running.length ≤ limit →
      (scheduleGo runW limit stack running finished).2.1.length ≤ limit := by
  intro stack
  induction stack with
  | nil => intro running finished h; simpa [scheduleGo] using h
  | cons r rest ih =>
    intro running finished h
    simp only [scheduleGo]
    by_cases hlim : running.length < limit
    · rw [if_pos hlim]
      cases hr : (Runner.run r (runW r)).1 with
      | inl rr =>
        exact ih (running ++ [rr]) finished (by simp; omega)
      | inr rf =>
        exact ih running (finished ++ [rf]) h
    · rw [if_neg hlim]
      exact h

/-- The scheduling loop permutes runners between partitions (by name),
creating and losing none. -/
lemma scheduleGo_perm (runW : Runner NewState → RunnerWorld) (limit : Nat) :
    ∀ (stack : List (Runner NewState)) (running : List (Runner RunningState))
      (finished : List (Runner FinishedState)),
      (((scheduleGo runW limit stack running finished).1.map fun r => r.name)
        ++ ((scheduleGo runW limit stack running finished).2.1.map fun r => r.name)
        ++ ((scheduleGo runW limit stack running finished).2.2.map fun r => r.name)).Perm
      ((stack.map fun r => r.name) ++ (running.map fun r => r.name)
        ++ (finished.map fun r => r.name)) := by
  intro stack
  induction stack with
  | nil => intro running finished; simp [scheduleGo]
  | cons r rest ih =>
    intro running finished
    simp only [scheduleGo]
    by_cases hlim : running.length < limit
    · rw [if_pos hlim]
      cases hr : (Runner.run r (runW r)).1 with
      | inl rr =>
        have hname : rr.name = r.name := by
          have h0 := run_fst_name r (runW r)
          rw [hr] at h0
          simpa using h0
        refine (ih (running ++ [rr]) finished).trans ?_
        simp only [List.map_append, List.map_cons, List.map_nil]
        rw [hname]
        exact perm_shuffle_mid _ _ _ _
      | inr rf =>
        have hname : rf.name = r.name := by
          have h0 := run_fst_name r (runW r)
          rw [hr] at h0
          simpa using h0
        refine (ih running (finished ++ [rf])).trans ?_
        simp only [List.map_append, List.map_cons, List.map_nil]
        rw [hname]
        exact perm_shuffle_last _ _ _ _
    · rw [if_neg hlim]

/-- A swap-remove that removed nothing left the list unchanged. -/
lemma swapRemove_none_eq {α : Type} {l : List α} {i : Nat} {l' : List α}
    (h : swapRemove l i = (l', none)) : l' = l := by
  unfold swapRemove at h
  split at h
  · simp at h
  · simp only [Prod.mk.injEq] at h
    exact h.1.symm

/-- A swap-remove never grows the list. -/
lemma swapRemove_fst_length_le {α : Type} (l : List α) (i : Nat) :
    (swapRemove l i).1.length ≤ l.length := by
  unfold swapRemove
  split
  · simp [List.length_set, List.length_dropLast]
  · exact le_refl _

/-- Putting the removed element back in front of a swap-remove result is a
permutation of the original list. -/
lemma swapRemove_some_perm {α : Type} {l l' : List α} {i : Nat} {x : α}
    (h : swapRemove l i = (l', some x)) : (x :: l').Perm l := by
  unfold swapRemove at h
  split at h
  case _ a z hg hl =>
    simp only [Prod.mk.injEq, Option.some.injEq] at h
    obtain ⟨h1, h2⟩ := h
    subst h1
    subst h2
    have hdrop : l.dropLast ++ [z] = l :=
      List.dropLast_append_getLast? z (Option.mem_def.mpr hl)
    have hlen : i < l.length := by
      by_contra hcon
      rw [List.getElem?_eq_none (Nat.le_of_not_lt hcon)] at hg
      exact Option.noConfusion hg
    have hPl : (l.dropLast ++ [z]).Perm l := by rw [hdrop]
    rcases Nat.lt_or_ge i l.dropLast.length with hi | hi
    · -- removing a non-last element
      have hg2 : l.dropLast[i]? = some a := by
        conv at hg => rw [← hdrop]
        rwa [List.getElem?_append_left hi] at hg
      have hx : l.dropLast[i] = a := by
        rw [List.getElem?_eq_getElem hi] at hg2
        exact Option.some.inj hg2
      have hset : l.dropLast.set i z
          = l.dropLast.take i ++ z :: l.dropLast.drop (i + 1) :=
        List.set_eq_take_cons_drop z hi
      have hdecomp : l.dropLast
          = l.dropLast.take i ++ a :: l.dropLast.drop (i + 1) := by
        conv_lhs => rw [← List.take_append_drop i l.dropLast]
        rw [← List.getElem_cons_drop l.dropLast i hi, hx]
      rw [hset]
      refine List.Perm.trans ?_ hPl
      conv_rhs => rw [hdecomp]
      have s1 : (a :: (l.dropLast.take i ++ z :: l.dropLast.drop (i + 1))).Perm
          (a :: z :: (l.dropLast.take i ++ l.dropLast.drop (i + 1))) :=
        List.Perm.cons a List.perm_middle
      have s2 : (a :: z :: (l.dropLast.take i ++ l.dropLast.drop (i + 1))).Perm
          (z :: a :: (l.dropLast.take i ++ l.dropLast.drop (i + 1))) :=
        List.Perm.swap z a _
      have s3 : (z :: a :: (l.dropLast.take i ++ l.dropLast.drop (i + 1))).Perm
          (z :: (l.dropLast.take i ++ a :: l.dropLast.drop (i + 1))) :=
        List.Perm.cons z List.perm_middle.symm
      have s4 : (z :: (l.dropLast.take i ++ a :: l.dropLast.drop (i + 1))).Perm
          ((l.dropLast.take i ++ a :: l.dropLast.drop (i + 1)) ++ [z]) :=
        (List.perm_append_singleton z _).symm
      exact ((s1.trans s2).trans s3).trans s4
    · -- removing the last element
      have hi2 : i = l.dropLast.length := by
        have hl1 : l.dropLast.length = l.length - 1 := List.length_dropLast l
        omega
      have hxz : a = z := by
        conv at hg => rw [← hdrop]
        rw [List.getElem?_append_right hi, hi2] at hg
        simp at hg
        exact hg.symm
      rw [List.set_eq_of_length_le hi, hxz]
      exact (List.perm_append_singleton z _).symm.trans hPl
  case _ o1 o2 hno =>
    simp at h

/-- The collection loop never grows the running set. -/
lemma collectGo_fst_length_le (finishW : Runner RunningState → RunnerWorld) :
    ∀ (idxs : List Nat) (running : List (Runner RunningState))
      (finished : List (Runner FinishedState)),
      (collectGo finishW idxs running finished).1.length ≤ running.length := by
  intro idxs
  induction idxs with
  | nil => intro running finished; simp [collectGo]
  | cons i rest ih =>
    intro running finished
    simp only [collectGo]
    rcases hsw : swapRemove running i with ⟨running', o⟩
    have hle : running'.length ≤ running.length := by
      have := swapRemove_fst_length_le running i
      rwa [hsw] at this
    cases o with
    | some r => exact le_trans (ih running' _) hle
    | none => exact le_trans (ih running' finished) hle

/-- The collection loop permutes runners (by name) from running into finished,
creating and losing none. -/
lemma collectGo_perm (finishW : Runner RunningState → RunnerWorld) :
    ∀ (idxs : List Nat) (running : List (Runner RunningState))
      (finished : List (Runner FinishedState)),
      (((collectGo finishW idxs running finished).1.map fun r => r.name)
        ++ ((collectGo finishW idxs running finished).2.map fun r => r.name)).Perm
      ((running.map fun r => r.name) ++ (finished.map fun r => r.name)) := by
  intro idxs
  induction idxs with
  | nil => intro running finished; simp [collectGo]
  | cons i rest ih =>
    intro running finished
    simp only [collectGo]
    rcases hsw : swapRemove running i with ⟨running', o⟩
    cases o with
    | some r =>
      have hperm : ((r.name :: running'.map fun r => r.name)).Perm
          (running.map fun r => r.name) := by
        have h0 := (swapRemove_some_perm hsw).map (fun r => r.name)
        simpa using h0
      refine (ih running' _).trans ?_
      simp only [List.map_append, List.map_cons, List.map_nil, finish_fst_name]
      have s1 : ((running'.map fun r => r.name)
            ++ ((finished.map fun r => r.name) ++ [r.name])).Perm
          ((running'.map fun r => r.name) ++ (r.name :: (finished.map fun r => r.name))) :=
        List.Perm.append_left _ (List.perm_append_singleton _ _)
      have s2 : ((running'.map fun r => r.name)
            ++ (r.name :: (finished.map fun r => r.name))).Perm
          (r.name :: ((running'.map fun r => r.name) ++ (finished.map fun r => r.name))) :=
        List.perm_middle
      have s3 : ((r.name :: (running'.map fun r => r.name))
            ++ (finished.map fun r => r.name)).Perm
          ((running.map fun r => r.name) ++ (finished.map fun r => r.name)) :=
        hperm.append_right _
      exact (s1.trans s2).trans s3
    | none =>
      have heq : running' = running := swapRemove_none_eq hsw
      subst heq
      exact ih running' finished

/-- `step()` never changes the queue's limit. -/
lemma step_limit_eq (o : StepOracle) (q : Queue) : (Queue.step o q).limit = q.limit := rfl

/-- `schedule()` permutes the queue's runners across partitions. -/
lemma schedule_allNames_perm (runW : Runner NewState → RunnerWorld) (q : Queue) :
    ((Queue.schedule runW q).allNames).Perm q.allNames := by
  show (((scheduleGo runW q.limit q.waiting.reverse q.running q.finished).1.reverse.map
        fun r => r.name)
      ++ ((scheduleGo runW q.limit q.waiting.reverse q.running q.finished).2.1.map
        fun r => r.name)
      ++ ((scheduleGo runW q.limit q.waiting.reverse q.running q.finished).2.2.map
        fun r => r.name)).Perm
    ((q.waiting.map fun r => r.name) ++ (q.running.map fun r => r.name)
      ++ (q.finished.map fun r => r.name))
  have h1 : (((scheduleGo runW q.limit q.waiting.reverse q.running q.finished).1.reverse.map
      fun r => r.name)).Perm
      ((scheduleGo runW q.limit q.waiting.reverse q.running q.finished).1.map
        fun r => r.name) := by
    rw [List.map_reverse]
    exact List.reverse_perm _
  have h2 := scheduleGo_perm runW q.limit q.waiting.reverse q.running q.finished
  have h3 : ((q.waiting.reverse.map fun r => r.name) ++ (q.running.map fun r => r.name)
      ++ (q.finished.map fun r => r.name)).Perm
      ((q.waiting.map fun r => r.name) ++ (q.running.map fun r => r.name)
        ++ (q.finished.map fun r => r.name)) := by
    have hrev : ((q.waiting.reverse.map fun r => r.name)).Perm
        (q.waiting.map fun r => r.name) := by
      rw [List.map_reverse]
      exact List.reverse_perm _
    exact (hrev.append_right _).append_right _
  exact (((h1.append_right _).append_right _).trans h2).trans h3

/-- `collect_finished()` permutes the queue's runners across partitions. -/
lemma collect_allNames_perm (pollW finishW : Runner RunningState → RunnerWorld) (q : Queue) :
    ((Queue.collect_finished pollW finishW q).allNames).Perm q.allNames := by
  show ((q.waiting.map fun r => r.name)
      ++ ((collectGo finishW
            ((((q.running.enum).filter
                (fun p => Runner.try_ready p.2 (pollW p.2))).map Prod.fst).reverse)
            q.running q.finished).1.map fun r => r.name)
      ++ ((collectGo finishW
            ((((q.running.enum).filter
                (fun p => Runner.try_ready p.2 (pollW p.2))).map Prod.fst).reverse)
            q.running q.finished).2.map fun r => r.name)).Perm
    ((q.waiting.map fun r => r.name) ++ (q.running.map fun r => r.name)
      ++ (q.finished.map fun r => r.name))
  rw [List.append_assoc, List.append_assoc]
  exact List.Perm.append_left _ (collectGo_perm finishW _ q.running q.finished)

/-- C3: after any `step()` on a queue satisfying the admission invariant, the
running partition stays within the (unchanged) limit, and the queue's runners
are exactly permuted across the waiting/running/finished partitions — a runner
that appeared exactly once before appears exactly once after. -/
theorem c3_queue_invariant (o : StepOracle) (q : Queue)
    (h : q.running.length ≤ q.limit) :
    (Queue.step o q).running.length ≤ (Queue.step o q).limit
    ∧ ((Queue.step o q).allNames).Perm q.allNames
    ∧ (∀ nm : String, q.allNames.count nm = 1 → (Queue.step o q).allNames.count nm = 1) := by
  have hperm : ((Queue.step o q).allNames).Perm q.allNames :=
    (collect_allNames_perm o.pollW o.finishW _).trans (schedule_allNames_perm o.runW q)
  refine ⟨?_, hperm, ?_⟩
  · have h1 : (Queue.schedule o.runW q).running.length ≤ q.limit :=
      scheduleGo_length o.runW q.limit q.waiting.reverse q.running q.finished h
    have h2 : (Queue.step o q).running.length ≤ (Queue.schedule o.runW q).running.length :=
      collectGo_fst_length_le o.finishW _ _ _
    exact le_trans h2 h1
  · intro nm hc
    rw [hperm.count_eq nm]
    exact hc

/-- Trivial oracle: every runner observes the all-success world. -/
def oEx : StepOracle := ⟨fun _ => wAllOk, fun _ => wAllOk, fun _ => wAllOk⟩

/-- A concrete queue with one waiting runner and limit 1. -/
def qEx : Queue := { limit := 1, waiting := [rNewEx], running := [], finished := [] }

/-- C3 witness at a concrete queue. -/
theorem c3_witness :
    qEx.running.length ≤ qEx.limit
    ∧ (Queue.step oEx qEx).running.length ≤ (Queue.step oEx qEx).limit :=
  ⟨Nat.zero_le _, (c3_queue_invariant oEx qEx (Nat.zero_le _)).1⟩

/-!
C4, C5 — scheduler capacity split and one-shot transfer.
-/

/-- When the (stepped) cpu-intensive queue can yield, one scheduler iteration
transfers its entire limit to the regular queue and zeroes it. -/
lemma iter_on_yield (o : StepOracle) (s : Scheduler)
    (h : (Queue.step o s.cpu_itensive).can_yield = true) :
    (Scheduler.iter o s).cpu_itensive.limit = 0
    ∧ (Scheduler.iter o s).regular.limit = s.regular.limit + s.cpu_itensive.limit := by
  unfold Scheduler.iter
  simp [h, step_limit_eq, Nat.add_comm]

/-- One scheduler iteration never increases the cpu-intensive limit. -/
lemma iter_cpu_le (o : StepOracle) (s : Scheduler) :
    (Scheduler.iter o s).cpu_itensive.limit ≤ s.cpu_itensive.limit := by
  unfold Scheduler.iter
  by_cases h : (Queue.step o s.cpu_itensive).can_yield = true
  · simp only [h, if_true]
    exact Nat.zero_le _
  · simp only [Bool.not_eq_true] at h
    simp only [h, Bool.false_eq_true, if_false, step_limit_eq]
    exact le_refl _

/-- One scheduler iteration preserves the total limit of the two queues. -/
lemma iter_total (o : StepOracle) (s : Scheduler) :
    (Scheduler.iter o s).cpu_itensive.limit + (Scheduler.iter o s).regular.limit
      = s.cpu_itensive.limit + s.regular.limit := by
  unfold Scheduler.iter
  by_cases h : (Queue.step o s.cpu_itensive).can_yield = true
  · simp only [h, if_true, step_limit_eq]
    omega
  · simp only [Bool.not_eq_true] at h
    simp only [h, Bool.false_eq_true, if_false, step_limit_eq]

/-- Across any number of iterations the cpu-intensive limit never increases. -/
lemma runSteps_cpu_le (o : Nat → StepOracle) :
    ∀ (n : Nat) (s : Scheduler),
      (Scheduler.runSteps o n s).cpu_itensive.limit ≤ s.cpu_itensive.limit := by
  intro n
  induction n with
  | zero => intro s; exact le_refl _
  | succ n ih =>
    intro s
    exact le_trans (ih (Scheduler.iter (o n) s)) (iter_cpu_le (o n) s)

/-- Across any number of iterations the total limit is preserved. -/
lemma runSteps_total (o : Nat → StepOracle) :
    ∀ (n : Nat) (s : Scheduler),
      (Scheduler.runSteps o n s).cpu_itensive.limit
          + (Scheduler.runSteps o n s).regular.limit
        = s.cpu_itensive.limit + s.regular.limit := by
  intro n
  induction n with
  | zero => intro s; rfl
  | succ n ih =>
    intro s
    exact (ih (Scheduler.iter (o n) s)).trans (iter_total (o n) s)

/-- C4: capacity transfer is monotonic and one-shot: no iteration sequence
ever increases the cpu-intensive limit or loses capacity; once the limit is 0
it stays 0; and an iteration in which the stepped cpu-intensive queue can
yield moves its entire limit onto the regular queue and zeroes its own. -/
theorem c4_capacity_transfer (o : Nat → StepOracle) (s : Scheduler) (n : Nat) :
    ((Scheduler.runSteps o n s).cpu_itensive.limit
        + (Scheduler.runSteps o n s).regular.limit
      = s.cpu_itensive.limit + s.regular.limit)
    ∧ (Scheduler.runSteps o n s).cpu_itensive.limit ≤ s.cpu_itensive.limit
    ∧ (s.cpu_itensive.limit = 0 → (Scheduler.runSteps o n s).cpu_itensive.limit = 0)
    ∧ (∀ b : StepOracle, (Queue.step b s.cpu_itensive).can_yield = true →
        (Scheduler.iter b s).cpu_itensive.limit = 0
        ∧ (Scheduler.iter b s).regular.limit
            = s.regular.limit + s.cpu_itensive.limit) := by
  refine ⟨runSteps_total o n s, runSteps_cpu_le o n s, ?_, ?_⟩
  · intro h0
    have hle := runSteps_cpu_le o n s
    omega
  · intro b hb
    exact iter_on_yield b s hb

/-- A concrete scheduler whose cpu-intensive limit is already 0. -/
def sZero : Scheduler :=
  { cpu_itensive := { limit := 0, waiting := [], running := [], finished := [] }
    regular := { limit := 3, waiting := [], running := [], finished := [] } }

/-- A concrete drained scheduler about to yield (limits 2 and 2). -/
def sYield : Scheduler :=
  { cpu_itensive := { limit := 2, waiting := [], running := [], finished := [] }
    regular := { limit := 2, waiting := [], running := [], finished := [] } }

/-- The trivial oracle, per iteration. -/
def oN : Nat → StepOracle := fun _ => oEx

/-- C4 witness: a zeroed cpu-intensive limit stays 0 over three iterations,
and a drained cpu-intensive queue with limit 2 yields it all to the regular
queue (2 + 2 = 4). -/
theorem c4_witness :
    (Scheduler.runSteps oN 3 sZero).cpu_itensive.limit = 0
    ∧ (Scheduler.iter oEx sYield).cpu_itensive.limit = 0
    ∧ (Scheduler.iter oEx sYield).regular.limit = 4 :=
  ⟨(c4_capacity_transfer oN sZero 3).2.2.1 rfl,
   ((c4_capacity_transfer oN sYield 0).2.2.2 oEx (by decide)).1,
   ((c4_capacity_transfer oN sYield 0).2.2.2 oEx (by decide)).2⟩

/-- The two limits computed by `Scheduler::new`, read off the construction. -/
lemma scheduler_new_limits (config : Configuration) (logRoot : String) :
    (Scheduler.new config logRoot).cpu_itensive.limit
        = (if config.concurrent_limit.getD 1 > 1
           then config.concurrent_limit.getD 1 / 4 + 1 else 0)
    ∧ (Scheduler.new config logRoot).regular.limit
        = config.concurrent_limit.getD 1
          - (if config.concurrent_limit.getD 1 > 1
             then config.concurrent_limit.getD 1 / 4 + 1 else 0) :=
  ⟨rfl, rfl⟩

/-- C5: at construction with overall limit `L` (default 1 when unset), the
cpu-intensive queue gets `L/4 + 1` when `L > 1` and 0 otherwise, the regular
queue gets the remainder; for `L = 4` both get 2, and once the cpu-intensive
queue drains and yields, the regular limit becomes 4. -/
theorem c5_capacity_split (config : Configuration) (logRoot : String) :
    (1 < config.concurrent_limit.getD 1 →
        (Scheduler.new config logRoot).cpu_itensive.limit
            = config.concurrent_limit.getD 1 / 4 + 1
        ∧ (Scheduler.new config logRoot).regular.limit
            = config.concurrent_limit.getD 1
              - (config.concurrent_limit.getD 1 / 4 + 1))
    ∧ (config.concurrent_limit.getD 1 ≤ 1 →
        (Scheduler.new config logRoot).cpu_itensive.limit = 0
        ∧ (Scheduler.new config logRoot).regular.limit = config.concurrent_limit.getD 1)
    ∧ (config.concurrent_limit = some 4 →
        (Scheduler.new config logRoot).cpu_itensive.limit = 2
        ∧ (Scheduler.new config logRoot).regular.limit = 2
        ∧ (∀ b : StepOracle,
            (Queue.step b (Scheduler.new config logRoot).cpu_itensive).can_yield = true →
            (Scheduler.iter b (Scheduler.new config logRoot)).regular.limit = 4)) := by
  obtain ⟨hcpu, hreg⟩ := scheduler_new_limits config logRoot
  refine ⟨?_, ?_, ?_⟩
  · intro h
    rw [if_pos h] at hcpu hreg
    exact ⟨hcpu, hreg⟩
  · intro h
    have hneg : ¬ (config.concurrent_limit.getD 1 > 1) := by omega
    rw [if_neg hneg] at hcpu hreg
    refine ⟨hcpu, ?_⟩
    rw [hreg]
    omega
  · intro h
    rw [h] at hcpu hreg
    norm_num at hcpu hreg
    refine ⟨hcpu, hreg, ?_⟩
    intro b hb
    have hy := (iter_on_yield b (Scheduler.new config logRoot) hb).2
    rw [hy, hcpu, hreg]

/-- A concrete configuration with overall limit 4 and no suites. -/
def config4 : Configuration :=
  { concurrent_limit := some 4, jobs := 4, timeout := "240", vm_memory := 4096,
    suites := [] }

/-- C5 witness: limits 2/2 at `L = 4`, and 4 after the drained cpu-intensive
queue yields. -/
theorem c5_witness :
    (Scheduler.new config4 "/logs").cpu_itensive.limit = 2
    ∧ (Scheduler.new config4 "/logs").regular.limit = 2
    ∧ (Scheduler.iter oEx (Scheduler.new config4 "/logs")).regular.limit = 4 :=
  ⟨((c5_capacity_split config4 "/logs").2.2 rfl).1,
   ((c5_capacity_split config4 "/logs").2.2 rfl).2.1,
   ((c5_capacity_split config4 "/logs").2.2 rfl).2.2 oEx (by decide)⟩

/-!
C10 — a limit of at most 1 sends every suite to the regular queue.
-/

/-- `Runner::new` names the runner after its suite. -/
lemma runner_new_name (index memory jobs : Nat) (timeout : String) (suite : Suite)
    (logRoot : String) :
    (Runner.new index memory jobs timeout suite logRoot).name = suite.name := rfl

/-- With a zero cpu-intensive limit the partitioning loop sends every suite to
the regular list, in order. -/
lemma partition_cpu_zero (config : Configuration) (logRoot : String) :
    schedulerPartition config logRoot 0
      = (config.suites.enum.map
          (fun p => Runner.new p.1 config.vm_memory config.jobs config.timeout p.2 logRoot),
         []) := by
  unfold schedulerPartition
  have hgen : ∀ (l : List (Nat × Suite)) (acc : List (Runner NewState) × List (Runner NewState)),
      l.foldl
        (fun acc p =>
          let runner := Runner.new p.1 config.vm_memory config.jobs config.timeout p.2 logRoot
          if 0 > 0 && p.2.is_cpu_intensive then (acc.1, acc.2 ++ [runner])
          else (acc.1 ++ [runner], acc.2))
        acc
      = (acc.1 ++ l.map
          (fun p => Runner.new p.1 config.vm_memory config.jobs config.timeout p.2 logRoot),
         acc.2) := by
    intro l
    induction l with
    | nil => intro acc; simp
    | cons p rest ih =>
      intro acc
      simp only [List.foldl_cons, List.map_cons]
      rw [ih]
      simp
  rw [hgen]
  simp

/-- C10: when the configured concurrency limit is absent or at most 1, the
cpu-intensive queue is empty with limit 0 and every suite — cpu-intensive ones
included — waits in the regular queue (in order), whose limit is the full
configured limit. -/
theorem c10_low_limit_all_regular (config : Configuration) (logRoot : String)
    (h : config.concurrent_limit.getD 1 ≤ 1) :
    (Scheduler.new config logRoot).cpu_itensive.limit = 0
    ∧ (Scheduler.new config logRoot).cpu_itensive.waiting = []
    ∧ ((Scheduler.new config logRoot).regular.waiting.map fun r => r.name)
        = config.suites.map Suite.name
    ∧ (Scheduler.new config logRoot).regular.limit = config.concurrent_limit.getD 1 := by
  have hneg : ¬ (config.concurrent_limit.getD 1 > 1) := by omega
  obtain ⟨hcpu, hreg⟩ := scheduler_new_limits config logRoot
  rw [if_neg hneg] at hcpu hreg
  have hcw : (Scheduler.new config logRoot).cpu_itensive.waiting
      = (schedulerPartition config logRoot
          (if config.concurrent_limit.getD 1 > 1
           then config.concurrent_limit.getD 1 / 4 + 1 else 0)).2 := rfl
  have hrw : (Scheduler.new config logRoot).regular.waiting
      = (schedulerPartition config logRoot
          (if config.concurrent_limit.getD 1 > 1
           then config.concurrent_limit.getD 1 / 4 + 1 else 0)).1 := rfl
  rw [if_neg hneg, partition_cpu_zero] at hcw hrw
  refine ⟨hcpu, by rw [hcw], ?_, by rw [hreg]; omega⟩
  rw [hrw]
  simp only [List.map_map]
  have hfun : ((fun r : Runner NewState => r.name)
        ∘ fun p : Nat × Suite =>
          Runner.new p.1 config.vm_memory config.jobs config.timeout p.2 logRoot)
      = (Suite.name ∘ Prod.snd) := rfl
  rw [hfun, ← List.map_map, List.enum_map_snd]

/-- A concrete configuration with no explicit concurrency limit and one
cpu-intensive suite. -/
def configNone : Configuration :=
  { concurrent_limit := none, jobs := 2, timeout := "120", vm_memory := 2048,
    suites := [suiteEx] }

/-- C10 witness: with the limit unset, the single cpu-intensive suite waits in
the regular queue and the cpu-intensive queue is empty with limit 0. -/
theorem c10_witness :
    configNone.concurrent_limit.getD 1 ≤ 1
    ∧ (Scheduler.new configNone "/logs").cpu_itensive.limit = 0
    ∧ (Scheduler.new configNone "/logs").cpu_itensive.waiting = []
    ∧ ((Scheduler.new configNone "/logs").regular.waiting.map fun r => r.name)
        = configNone.suites.map Suite.name :=
  ⟨by decide,
   (c10_low_limit_all_regular configNone "/logs" (by decide)).1,
   (c10_low_limit_all_regular configNone "/logs" (by decide)).2.1,
   (c10_low_limit_all_regular configNone "/logs" (by decide)).2.2.1⟩

end OvnCi
